import Mathlib

/-!
Shallow embedding of the BLUSE MeerKAT backend coordinator
(`meerkat_backend_interface/coordinator.py`, with the legacy flat variant
`coordinator.py` at the repository root) and proofs about the behaviour of
its handlers.  Redis effects (pub/sub publishes, hash writes, key writes)
and the explicit sleep in `tracking_stop` are modelled as an ordered trace
of operations; redis *reads* are modelled by passing the read values in as
parameters of the embedded handler.
-/

namespace MKBI

/-- Constant `HPGDOMAIN` from coordinator.py. -/
def HPGDOMAIN : String := "bluse"

/-- Constant `PKTIDX_MARGIN` from coordinator.py. -/
def PKTIDX_MARGIN : Int := 1024

/-- Constant `PROXY_CHANNEL` from coordinator.py. -/
def PROXY_CHANNEL : String := "slack-messages"

/-- Constant `SLACK_CHANNEL` from coordinator.py. -/
def SLACK_CHANNEL : String := "meerkat-obs-log"

/-- One externally visible redis-side effect of the coordinator, in program
order: a pub/sub publish, a hash-field write (`hset`), a plain key write
(`set`), or a `time.sleep` (milliseconds). -/
inductive Op where
  | publish (chan msg : String)
  | hset (chan field val : String)
  | setKey (key val : String)
  | sleepMs (ms : Nat)
deriving DecidableEq, Repr

/-- Tests whether an operation is a hash write. -/
def isHSetOp : Op → Bool
  | Op.hset _ _ _ => true
  | _ => false

/-- Tests whether an operation is a pub/sub publish. -/
def isPublishOp : Op → Bool
  | Op.publish _ _ => true
  | _ => false

/-- Tests whether an operation is a publish on the given channel. -/
def isPubTo (chan : String) : Op → Bool
  | Op.publish c _ => c = chan
  | _ => false

/-- Embedding of `Coordinator.pub_gateway_msg` (coordinator.py lines
689-707, and the identical flat-variant `pub_gateway_msg`, coordinator.py
lines 298-319 at the repository root): format `msg_name=msg_val`, publish
it on `chan_name`, and, when `write` is true, additionally `hset` the pair
into the channel's hash.  The trace records the effects in the source's
program order. -/
def pub_gateway_msg (chan_name msg_name msg_val : String) (write : Bool) :
    List Op :=
  [Op.publish chan_name (msg_name ++ "=" ++ msg_val)] ++
    (if write then [Op.hset chan_name msg_name msg_val] else [])

/-- The single-quote character. -/
def squote : Char := Char.ofNat 39

/-- The double-quote character. -/
def dquote : Char := Char.ofNat 34

/-- The letter removed by `json_str_formatter`. -/
def uchar : Char := Char.ofNat 117

/-- The character substitution performed by quote replacement. -/
def swapQuote (c : Char) : Char := if c = squote then dquote else c

/-- The character predicate kept by the `u` removal. -/
def notU (c : Char) : Bool := decide (c ≠ uchar)

/-- First step of `Coordinator.json_str_formatter` (coordinator.py line
968): replace every single quote by a double quote. -/
def pyReplaceQuotes (s : String) : String :=
  String.mk (s.data.map swapQuote)

/-- Second step of `Coordinator.json_str_formatter` (coordinator.py line
969): delete every occurrence of the letter `u`. -/
def pyRemoveU (s : String) : String :=
  String.mk (s.data.filter notU)

/-- Embedding of `Coordinator.json_str_formatter` (coordinator.py lines
956-970), applied by `ip_addresses` (line 946) to the raw stream-descriptor
string before `json.loads` on every `conf_complete`. -/
def json_str_formatter (s : String) : String :=
  pyRemoveU (pyReplaceQuotes s)

/-- Python `abs` / `np.abs` on an integer. -/
def absInt (x : Int) : Int := if x < 0 then -x else x

/-- Insertion into an ascending sorted list. -/
def insSorted (x : Int) : List Int → List Int
  | [] => [x]
  | y :: ys => if x ≤ y then x :: y :: ys else y :: insSorted x ys

/-- Ascending sort of the packet indices (numpy sorts before taking the
median). -/
def sortInt (l : List Int) : List Int := l.foldr insSorted []

/-- Twice the numpy median of the list.  Working with `2 * median` keeps
the even-length case (average of the two central values) exact over `Int`
instead of a float. -/
def median2 (xs : List Int) : Int :=
  let s := sortInt xs
  if xs.length % 2 = 1 then 2 * s.getD (xs.length / 2) 0
  else s.getD (xs.length / 2 - 1) 0 + s.getD (xs.length / 2) 0

/-- Twice the absolute deviations from the median, with outlier entries
masked to 0: the array `margin_diff` of `select_pkt_start` after the
assignment `margin_diff[outliers] = 0` (coordinator.py line 552). -/
def maskedDiffs2 (xs : List Int) (idx_margin : Int) : List Int :=
  xs.map (fun x =>
    let d := absInt (2 * x - median2 xs)
    if d > 2 * idx_margin then 0 else d)

/-- Number of outliers, `len(np.where(margin_diff > margin)[0])`
(coordinator.py lines 545-546). -/
def nOutliers (xs : List Int) (idx_margin : Int) : Nat :=
  (xs.filter (fun x => absInt (2 * x - median2 xs) > 2 * idx_margin)).length

/-- First index of the maximal element, i.e. `np.argmax` (ties resolve to
the first occurrence). -/
def np_argmax : List Int → Nat
  | [] => 0
  | [_] => 0
  | x :: y :: ys =>
    if (y :: ys).getD (np_argmax (y :: ys)) 0 > x then np_argmax (y :: ys) + 1
    else 0

/-- Result of the start-index selection: the chosen start packet index and
the two warning conditions logged by `select_pkt_start`. -/
structure PktStartResult where
  start : Int
  warnOutliers : Bool
  warnSpread : Bool
deriving DecidableEq, Repr

/-- Embedding of `Coordinator.select_pkt_start` (coordinator.py lines
523-555, identical to the flat-variant `select_pkt_start`, lines 83-115 at
the repository root): compute the median of the packet indices, flag
deviations above the margin as outliers (warning if any, warning again if
more than half are outliers), zero the outliers' deviations, and return
the value at `np.argmax` of the masked deviations plus the margin. -/
def select_pkt_start (pkt_idxs : List Int) (idx_margin : Int) : PktStartResult :=
  let md := maskedDiffs2 pkt_idxs idx_margin
  let nOut := nOutliers pkt_idxs idx_margin
  { start := pkt_idxs.getD (np_argmax md) 0 + idx_margin,
    warnOutliers := decide (0 < nOut),
    warnSpread := decide (pkt_idxs.length < 2 * nOut) }

/-- Freshness test of one retry of `Coordinator.get_target`
(coordinator.py line 655): the observed `last-target` timestamp minus the
observed `last-capture-start` timestamp is not negative.  `obs i` is the
pair of timestamps read from redis on attempt `i`; only their comparison
matters, so they are modelled as integers. -/
def target_fresh (obs : Nat → Int × Int) (i : Nat) : Bool :=
  !(decide ((obs i).1 - (obs i).2 < 0))

/-- Final value of the Python loop variable `i` in `Coordinator.get_target`
(coordinator.py lines 652-660): starting at `i = start` with `fuel`
iterations remaining, the loop breaks at the first fresh attempt and
otherwise exhausts, leaving `i` at the index of the last iteration. -/
def loop_final_i (fresh : Nat → Bool) : Nat → Nat → Nat
  | i, 0 => i
  | i, 1 => i
  | i, fuel + 2 => if fresh i then i else loop_final_i fresh (i + 1) (fuel + 1)

/-- Embedding of `Coordinator.get_target` (coordinator.py lines 637-666):
retry up to `retries` times, then return the stored target string only
when the loop broke before its final iteration, else the fallback
UNKNOWN (the check is `i == retries - 1`, line 661). -/
def get_target (obs : Nat → Int × Int) (retries : Nat) (stored : String) :
    String :=
  if loop_final_i (target_fresh obs) 0 retries = retries - 1 then "UNKNOWN"
  else stored

/-- One multicast group specifier produced by the stream planner: rendered
as `pfx.suffix+cnt`, covering `cnt + 1` consecutive stream addresses whose
final octet starts at `suffix`. -/
structure AddrGroup where
  pfx : String
  suffix : Int
  cnt : Int
deriving DecidableEq, Repr

/-- String rendering of one group, the Python
`prefix + '.{}+{}'.format(suffix0, cnt)`. -/
def AddrGroup.toStr (g : AddrGroup) : String :=
  g.pfx ++ "." ++ toString g.suffix ++ "+" ++ toString g.cnt

/-- Embedding of `Coordinator.create_addr_list_filled` (coordinator.py
lines 999-1035).  `pfx` and `suffix0` are the two halves of
`addr0.rsplit('.', 1)`; for a URL `spead://A.B.C.D+N:PORT` the caller
`read_spead_addresses` (line 991) passes `n_addrs = N + 1`.  `req` models
`int(np.ceil(n_addrs/float(streams_per_instance)))` after the offset has
been subtracted.  When the else-branch loop `for i in range(1,
n_instances_req)` never runs (exactly when `req < 2`), the final `append`
of the source references the never-bound loop variable `i` and the
function raises `UnboundLocalError`; that crash is modelled as `none`. -/
def create_addr_list_filled (pfx : String) (suffix0 : Nat)
    (n_groups n_addrs streams_per_instance offset : Nat) :
    Option (List AddrGroup) :=
  let s0 : Int := (suffix0 : Int) + (offset : Int)
  let T : Int := (n_addrs : Int) - (offset : Int)
  let S : Int := (streams_per_instance : Int)
  if T > S * (n_groups : Int) then
    some ((List.range n_groups).map fun i =>
      { pfx := pfx, suffix := s0 + (i : Int) * S, cnt := S - 1 })
  else
    let req : Int := (T + S - 1) / S
    if 2 ≤ req then
      some (((List.range (req.toNat - 1)).map fun i =>
          ({ pfx := pfx, suffix := s0 + (i : Int) * S, cnt := S - 1 } : AddrGroup)) ++
        [{ pfx := pfx, suffix := s0 + ((req.toNat : Int) - 1) * S,
           cnt := T - 1 - ((req.toNat : Int) - 1) * S }])
    else none

/-- Total number of streams covered by a plan, `Σ (cnt_i + 1)`. -/
def planStreamSum (l : List AddrGroup) : Int :=
  (l.map (fun g => g.cnt + 1)).sum

/-- Last character of a string, Python `s[-1]`. -/
def lastChar (s : String) : Char := s.data.getLastD (Char.ofNat 0)

/-- Python `int(c)` for a single-character string holding a digit. -/
def digitVal (c : Char) : Option Int :=
  if c.isDigit then some ((c.toNat : Int) - 48) else none

/-- The NSTRM value `conf_complete` publishes for one allocated node
(coordinator.py line 224): `int(addr_list[i][-1]) + 1`, one plus the
integer value of the last character of the node's group string. -/
def nstrm_published (group : String) : Option Int :=
  (digitVal (lastChar group)).map (fun d => d + 1)

/-- The SCHAN value `conf_complete` publishes for node `i`
(coordinator.py line 228): `offset*int(hnchan) +
i*n_streams_per_instance*int(hnchan)`, where `n_streams_per_instance` is
the last-character-parsed NSTRM. -/
def schan_published (offset hnchan i nstrm : Int) : Int :=
  offset * hnchan + i * nstrm * hnchan

/-- Association list from product id to its allocated host list: the
redis keys `coordinator:allocated_hosts:<product_id>`. -/
abbrev Alloc := List (String × List String)

/-- The allocation-relevant redis state of the coordinator: the free-host
pool `coordinator:free_hosts` together with the per-subarray allocation
lists. -/
structure PoolState where
  freeHosts : List String
  alloc : Alloc
deriving Repr

/-- Redis `lrange` of `coordinator:allocated_hosts:<pid>`: the stored
list, or `[]` when the key is absent. -/
def lookupAlloc (a : Alloc) (pid : String) : List String :=
  ((a.find? (fun p => p.1 = pid)).map (fun p => p.2)).getD []

/-- Redis `delete` of `coordinator:allocated_hosts:<pid>` (also the
delete half of `write_list_redis`). -/
def eraseAlloc (a : Alloc) (pid : String) : Alloc :=
  a.filter (fun p => p.1 ≠ pid)

/-- Host-allocation effect of `Coordinator.conf_complete` (coordinator.py
lines 166-185): if the free pool is empty, warn and leave the state
unchanged; otherwise store the first `n_red_chans` free hosts as the
subarray's allocation (`write_list_redis` deletes any previous list
before pushing) and drop them from the free pool, emptying the pool when
fewer than `n_red_chans` hosts were available. -/
def conf_complete (st : PoolState) (pid : String) (n_red_chans : Nat) :
    PoolState :=
  if st.freeHosts.length = 0 then st
  else
    { freeHosts := st.freeHosts.drop n_red_chans,
      alloc := eraseAlloc st.alloc pid ++ [(pid, st.freeHosts.take n_red_chans)] }

/-- Host-release effect of `Coordinator.deconfigure` (coordinator.py
lines 354-377): append the subarray's allocated hosts to the free pool
and delete the allocation key. -/
def deconfigure (st : PoolState) (pid : String) : PoolState :=
  { freeHosts := st.freeHosts ++ lookupAlloc st.alloc pid,
    alloc := eraseAlloc st.alloc pid }

/-- A `conf_complete` or `deconfigure` event, the former carrying
`n_red_chans`, the length of the subarray's stream plan. -/
inductive PoolEvent where
  | conf (pid : String) (n_red_chans : Nat)
  | deconf (pid : String)
deriving DecidableEq, Repr

/-- Dispatch of one event to its handler. -/
def poolStep (st : PoolState) : PoolEvent → PoolState
  | PoolEvent.conf pid n => conf_complete st pid n
  | PoolEvent.deconf pid => deconfigure st pid

/-- Handling of a whole event sequence (the coordinator event loop runs
each handler to completion before the next event). -/
def poolRun (st : PoolState) (evs : List PoolEvent) : PoolState :=
  evs.foldl poolStep st

/-- The multiset of hosts recorded anywhere in the state: free pool plus
all per-subarray allocation lists. -/
def hostsMultiset (st : PoolState) : Multiset String :=
  (st.freeHosts : Multiset String) +
    (st.alloc.map (fun p => (p.2 : Multiset String))).sum

/-- Keys of the allocation map are pairwise distinct (they are distinct
redis keys). -/
def allocKeysNodup (st : PoolState) : Prop :=
  (st.alloc.map Prod.fst).Nodup

/-- Along a run, every `conf_complete` event names a product id that has
no current allocation entry. -/
def confFresh : PoolState → List PoolEvent → Prop
  | _, [] => True
  | st, PoolEvent.conf pid n :: evs =>
      st.alloc.find? (fun p => p.1 = pid) = none ∧
        confFresh (poolStep st (PoolEvent.conf pid n)) evs
  | st, PoolEvent.deconf pid :: evs =>
      confFresh (poolStep st (PoolEvent.deconf pid)) evs

/-- Lookup in a redis hash, modelled as an association list. -/
def hget (h : List (String × String)) (k : String) : Option String :=
  (h.find? (fun p => p.1 = k)).map (fun p => p.2)

/-- Embedding of `Coordinator.get_pkt_idx` (coordinator.py lines
466-491): the host's PKTIDX string is returned provided the status hash
is non-empty, has a NETSTAT field, that field is not `idle`, and PKTIDX
is present; otherwise Python `None`. -/
def get_pkt_idx (status : List (String × String)) : Option String :=
  if 0 < status.length then
    match hget status "NETSTAT" with
    | some ns => if ns ≠ "idle" then hget status "PKTIDX" else none
    | none => none
  else none

/-- Value of a list of decimal digit characters. -/
def digitsToNat (l : List Char) : Nat :=
  l.foldl (fun n c => n * 10 + (c.toNat - 48)) 0

/-- Conversion of a decimal string (optionally starting with a minus
sign) to an integer.  Models `np.asarray(-, dtype=np.int64)` and Python
`int(-)` on the well-formed decimal strings the coordinator stores. -/
def pyInt (s : String) : Int :=
  match s.data with
  | [] => 0
  | c :: cs =>
    if c = Char.ofNat 45 then -(digitsToNat cs : Int)
    else (digitsToNat s.data : Int)

/-- Embedding of `Coordinator.get_start_idx` (coordinator.py lines
493-521): collect PKTIDX from every active allocated host; if none are
active, warn and return `None`, else apply `select_pkt_start`.
`statusOf h` models the redis hash at `bluse://<h>/status`. -/
def get_start_idx (hosts : List String)
    (statusOf : String → List (String × String)) (idx_margin : Int) :
    Option Int :=
  let pkt_idxs := hosts.filterMap (fun host => get_pkt_idx (statusOf host))
  if 0 < pkt_idxs.length then
    some (select_pkt_start (pkt_idxs.map pyInt) idx_margin).start
  else none

/-- Python `'{}'.format(v)` of an optional integer: `None` formats as the
four-character string None. -/
def pyShowOptInt : Option Int → String
  | some n => toString n
  | none => "None"

/-- State read by the tracking handlers for one subarray.  `statusOf h`
models the redis hash `bluse://<h>/status`; `datadirStr`, `srcName`,
`raStr` and `decStr` stand for the values the helpers `datadir()` and
`target()` compute from redis for this subarray (their internals are not
needed by the properties proved here). -/
structure CoordState where
  allocated : List String
  statusOf : String → List (String × String)
  triggerMode : String
  trackingState : String
  datadirStr : String
  srcName : String
  raStr : String
  decStr : String

/-- Embedding of `Coordinator.host_list` (coordinator.py lines 557-569). -/
def host_list (hpgdomain : String) (hosts : List String) : List String :=
  hosts.map (fun host => hpgdomain ++ "://" ++ host ++ "/set")

/-- Result of a tracking handler: the ordered redis-effect trace and the
final values of `coordinator:trigger_mode:<pid>` and
`coordinator:tracking:<pid>`. -/
structure HandlerOut where
  ops : List Op
  trigger : String
  tracking : String
deriving Repr

/-- Python substring test `pat in s`. -/
def strContains (s pat : String) : Bool :=
  (List.range (s.data.length + 1)).any
    (fun i => ((s.data.drop i).take pat.data.length) = pat.data)

/-- Trigger-mode value stored after the nshot branch of `tracking_start`
(coordinator.py lines 288-299): decrement the counter, idling at zero. -/
def nshotUpdate (tm : String) : String :=
  let parts := tm.splitOn ":"
  let n : Int := pyInt (parts.getD 1 "") - 1
  if n ≤ 0 then "idle" else (parts.getD 0 "") ++ ":" ++ toString n

/-- Final trigger mode after `tracking_start` (coordinator.py lines
284-299): armed becomes idle, an nshot mode decrements, anything else
(auto, idle, ...) is unchanged. -/
def trigger_update (tm : String) : String :=
  if tm = "armed" then "idle"
  else if strContains tm "nshot" then nshotUpdate tm
  else tm

/-- Embedding of `Coordinator.tracking_start` (coordinator.py lines
233-301) for subarray `pid`.  The source consults neither the stored
tracking state nor the trigger mode before publishing: per host it sends
DATADIR, SRC_NAME, RA_STR, DEC_STR, then PKTSTART to every host (the
value of `get_start_idx`, formatted even when it is `None`), then the
slack alert, then steps armed/nshot trigger modes, then stores tracking
state 1. -/
def tracking_start (pid : String) (st : CoordState) : HandlerOut :=
  let chans := host_list HPGDOMAIN st.allocated
  let metaOps := (chans.map (fun c =>
    pub_gateway_msg c "DATADIR" st.datadirStr false ++
    pub_gateway_msg c "SRC_NAME" st.srcName false ++
    pub_gateway_msg c "RA_STR" st.raStr false ++
    pub_gateway_msg c "DEC_STR" st.decStr false)).flatten
  let pkt := get_start_idx st.allocated st.statusOf PKTIDX_MARGIN
  let pktOps := (chans.map (fun c =>
    pub_gateway_msg c "PKTSTART" (pyShowOptInt pkt) false)).flatten
  let slackOps := [Op.publish PROXY_CHANNEL
    (SLACK_CHANNEL ++ "::meerkat:: New recording started for " ++ pid ++ "!")]
  let tmKey := "coordinator:trigger_mode:" ++ pid
  let trigOps :=
    if st.triggerMode = "armed" then [Op.setKey tmKey "idle"]
    else if strContains st.triggerMode "nshot" then
      let parts := st.triggerMode.splitOn ":"
      let n : Int := pyInt (parts.getD 1 "") - 1
      [Op.setKey tmKey ((parts.getD 0 "") ++ ":" ++ toString n)] ++
        (if n ≤ 0 then [Op.setKey tmKey "idle"] else [])
    else []
  let trackOps := [Op.setKey ("coordinator:tracking:" ++ pid) "1"]
  { ops := metaOps ++ pktOps ++ slackOps ++ trigOps ++ trackOps,
    trigger := trigger_update st.triggerMode,
    tracking := "1" }

/-- Status hash of an active recording host with packet index 2000. -/
def activeStatus : List (String × String) :=
  [("NETSTAT", "RECORD"), ("PKTIDX", "2000"), ("DWELL", "300")]

/-- Subarray state: one active allocated host, trigger mode idle,
not currently tracking. -/
def idleModeState : CoordState :=
  { allocated := ["blpn01"],
    statusOf := fun _ => activeStatus,
    triggerMode := "idle",
    trackingState := "0",
    datadirStr := "/buf0/20240101/0007",
    srcName := "J0918-1205",
    raStr := "9:18:05.28",
    decStr := "-12:05:48.9" }

/-- The same state with trigger mode armed. -/
def armedModeState : CoordState :=
  { idleModeState with triggerMode := "armed" }

/-- Two allocated hosts whose status hashes cannot be read (empty), so
neither yields a PKTIDX. -/
def inactiveHostsState : CoordState :=
  { idleModeState with
      allocated := ["blpn01", "blpn02"],
      statusOf := fun _ => [],
      triggerMode := "auto" }

/-- Embedding of `Coordinator.get_dwell_time` (coordinator.py lines
443-464): the DWELL field of the host's status hash, defaulting to 0
when the hash or the field is missing (the Python int 0 formats as the
string 0 in the gateway message). -/
def get_dwell_time (status : List (String × String)) : String :=
  match hget status "DWELL" with
  | some d => d
  | none => "0"

/-- The per-host message block of `tracking_stop` (coordinator.py lines
328-337): DWELL=0, PKTSTART=0, a 100 ms sleep (`time.sleep(0.1)`), then
DWELL restored to the host's prior value. -/
def stopBlock (statusOf : String → List (String × String)) (host : String) :
    List Op :=
  pub_gateway_msg (HPGDOMAIN ++ "://" ++ host ++ "/set") "DWELL" "0" false ++
  pub_gateway_msg (HPGDOMAIN ++ "://" ++ host ++ "/set") "PKTSTART" "0" false ++
  [Op.sleepMs 100] ++
  pub_gateway_msg (HPGDOMAIN ++ "://" ++ host ++ "/set") "DWELL"
    (get_dwell_time (statusOf host)) false

/-- Embedding of `Coordinator.tracking_stop` (coordinator.py lines
303-339): only when the stored tracking state is 1, send each allocated
host its stop block in allocation order and then reset the tracking
state to 0; otherwise do nothing. -/
def tracking_stop (pid : String) (st : CoordState) : HandlerOut :=
  if st.trackingState = "1" then
    { ops := (st.allocated.map (stopBlock st.statusOf)).flatten ++
        [Op.setKey ("coordinator:tracking:" ++ pid) "0"],
      trigger := st.triggerMode,
      tracking := "0" }
  else
    { ops := [], trigger := st.triggerMode, tracking := st.trackingState }

/-- State used to witness the not-tracking sequence: two distinct hosts,
one with a stored dwell time, tracking state 1. -/
def stopWitnessState : CoordState :=
  { allocated := ["blpn01", "blpn02"],
    statusOf := fun h => if h = "blpn01" then [("DWELL", "300")] else [],
    triggerMode := "auto",
    trackingState := "1",
    datadirStr := "/buf0/20240101/0007",
    srcName := "J0918-1205",
    raStr := "9:18:05.28",
    decStr := "-12:05:48.9" }

/-- C8 counterexample: for a mirrored message (`write=True`) the pub/sub
publish is the first operation and the mirror `hset` the second, so the
mirror write does not precede the publish as the claim states. -/
theorem mirror_write_not_before_publish :
    (pub_gateway_msg "bluse://blpn48/set" "NSTRM" "4" true).findIdx isPublishOp = 0 ∧
    (pub_gateway_msg "bluse://blpn48/set" "NSTRM" "4" true).findIdx isHSetOp = 1 ∧
    ¬ (pub_gateway_msg "bluse://blpn48/set" "NSTRM" "4" true).findIdx isHSetOp <
        (pub_gateway_msg "bluse://blpn48/set" "NSTRM" "4" true).findIdx isPublishOp := by
  have h1 : (pub_gateway_msg "bluse://blpn48/set" "NSTRM" "4" true).findIdx isPublishOp = 0 := rfl
  have h2 : (pub_gateway_msg "bluse://blpn48/set" "NSTRM" "4" true).findIdx isHSetOp = 1 := rfl
  exact ⟨h1, h2, by rw [h1, h2]; omega⟩

/-- C8 (amended): for every gateway message published with mirroring
enabled, the trace is exactly the pub/sub publish of `KEY=VALUE` followed
by the mirror `hset` of the pair: the publish precedes the mirror write. -/
theorem pub_gateway_msg_order (chan_name msg_name msg_val : String) :
    pub_gateway_msg chan_name msg_name msg_val true =
      [Op.publish chan_name (msg_name ++ "=" ++ msg_val),
       Op.hset chan_name msg_name msg_val] ∧
    (pub_gateway_msg chan_name msg_name msg_val true).findIdx isPublishOp <
      (pub_gateway_msg chan_name msg_name msg_val true).findIdx isHSetOp := by
  exact ⟨rfl, by simp [pub_gateway_msg, List.findIdx, List.findIdx.go, isPublishOp, isHSetOp]⟩

theorem notU_swapQuote (c : Char) : notU (swapQuote c) = notU c := by
  by_cases h : c = squote
  · subst h
    rfl
  · rw [swapQuote, if_neg h]

/-- C10: `json_str_formatter` replaces every single quote by a double quote
and deletes every occurrence of the letter `u`: the output is the
quote-swapped image of the input with all `u`s removed, no single quote and
no `u` survives, and any input containing a `u` is strictly shortened
(hence altered) before the descriptor is parsed. -/
theorem json_str_formatter_spec (s : String) :
    (json_str_formatter s).data = (s.data.filter notU).map swapQuote ∧
    squote ∉ (json_str_formatter s).data ∧
    uchar ∉ (json_str_formatter s).data ∧
    (uchar ∈ s.data → (json_str_formatter s).data.length < s.data.length) := by
  have hdata : (json_str_formatter s).data = (s.data.filter notU).map swapQuote := by
    show (s.data.map swapQuote).filter notU = _
    rw [List.filter_map]
    exact congrArg (List.map swapQuote)
      (List.filter_congr (fun c _ => notU_swapQuote c))
  refine ⟨hdata, ?_, ?_, ?_⟩
  · rw [hdata]
    intro hmem
    rcases List.mem_map.mp hmem with ⟨c, _, hc⟩
    by_cases h : c = squote
    · rw [swapQuote, if_pos h] at hc
      exact absurd hc (by decide)
    · rw [swapQuote, if_neg h] at hc
      exact h hc
  · rw [hdata]
    intro hmem
    rcases List.mem_map.mp hmem with ⟨c, hcmem, hc⟩
    have hcne : c ≠ uchar := by
      have := (List.mem_filter.mp hcmem).2
      simpa [notU] using this
    by_cases h : c = squote
    · rw [swapQuote, if_pos h] at hc
      exact absurd hc (by decide)
    · rw [swapQuote, if_neg h] at hc
      exact hcne hc
  · intro hu
    rw [hdata, List.length_map]
    apply List.length_filter_lt_length_iff_exists.mpr
    exact ⟨uchar, hu, by simp [notU]⟩

/-- C10 witness: the formatter strictly shortens a concrete descriptor
fragment containing the letter `u`. -/
theorem json_str_formatter_spec_witness :
    uchar ∈ ("spead://u'x'" : String).data ∧
    (json_str_formatter "spead://u'x'").data.length < ("spead://u'x'" : String).data.length :=
  ⟨by decide, (json_str_formatter_spec "spead://u'x'").2.2.2 (by decide)⟩

theorem np_argmax_lt : ∀ (l : List Int), l ≠ [] → np_argmax l < l.length
  | [], h => absurd rfl h
  | [_], _ => Nat.zero_lt_one
  | x :: y :: ys, _ => by
    simp only [np_argmax]
    by_cases hc : (y :: ys).getD (np_argmax (y :: ys)) 0 > x
    · rw [if_pos hc]
      have h := np_argmax_lt (y :: ys) (by simp)
      simp only [List.length_cons] at h ⊢
      omega
    · rw [if_neg hc]
      simp

theorem np_argmax_le :
    ∀ (l : List Int), ∀ k, k < l.length → l.getD k 0 ≤ l.getD (np_argmax l) 0
  | [], k, hk => by simp at hk
  | [x], k, hk => by
    have hk0 : k = 0 := by simpa using Nat.lt_one_iff.mp (by simpa using hk)
    subst hk0
    simp [np_argmax]
  | x :: y :: ys, k, hk => by
    have hind := np_argmax_le (y :: ys)
    simp only [np_argmax]
    by_cases hc : (y :: ys).getD (np_argmax (y :: ys)) 0 > x
    · rw [if_pos hc]
      cases k with
      | zero => simpa using le_of_lt hc
      | succ k =>
        have hk' : k < (y :: ys).length := by simpa using hk
        simpa using hind k hk'
    · rw [if_neg hc]
      cases k with
      | zero => simp
      | succ k =>
        have hk' : k < (y :: ys).length := by simpa using hk
        have h1 := hind k hk'
        have h2 : (y :: ys).getD (np_argmax (y :: ys)) 0 ≤ x := not_lt.mp hc
        simpa using le_trans h1 h2

/-- C3 counterexample: for packet indices `[1000, 1005, 999999]` with
margin 1024, `select_pkt_start` flags the outlier but returns
`1000 + 1024 = 2024`, not the claimed `1005 + 1024 = 2029`: after masking,
`np.argmax` picks the non-outlier farthest from the median (here 1000),
not the maximal non-outlier. -/
theorem select_pkt_start_outlier_example :
    (select_pkt_start [1000, 1005, 999999] 1024).start = 2024 ∧
    (select_pkt_start [1000, 1005, 999999] 1024).warnOutliers = true ∧
    (select_pkt_start [1000, 1005, 999999] 1024).start ≠ 1005 + 1024 := by
  refine ⟨by decide, by decide, by decide⟩

/-- C3 (amended): for every non-empty list of PKTIDX values and margin Δ,
`select_pkt_start` warns exactly when some value deviates from the median
by more than Δ, warns again exactly when more than half the values do, and
returns `x_j + Δ` where `j` is an index maximising the outlier-masked
absolute deviation from the median (numpy argmax, first such index). -/
theorem select_pkt_start_characterization (xs : List Int) (idx_margin : Int)
    (hx : xs ≠ []) :
    ((select_pkt_start xs idx_margin).warnOutliers = true ↔
      ∃ x ∈ xs, 2 * idx_margin < absInt (2 * x - median2 xs)) ∧
    ((select_pkt_start xs idx_margin).warnSpread = true ↔
      xs.length < 2 * nOutliers xs idx_margin) ∧
    ∃ j, j < xs.length ∧
      (select_pkt_start xs idx_margin).start = xs.getD j 0 + idx_margin ∧
      ∀ k, k < xs.length →
        (maskedDiffs2 xs idx_margin).getD k 0 ≤ (maskedDiffs2 xs idx_margin).getD j 0 := by
  have hlen : (maskedDiffs2 xs idx_margin).length = xs.length := by
    simp [maskedDiffs2]
  refine ⟨?_, ?_, ?_⟩
  · simp only [select_pkt_start, decide_eq_true_eq, nOutliers]
    rw [List.length_pos, ne_eq, List.filter_eq_nil_iff]
    push_neg
    simp only [Decidable.not_not, decide_eq_true_eq]
  · simp [select_pkt_start]
  · refine ⟨np_argmax (maskedDiffs2 xs idx_margin), ?_, rfl, ?_⟩
    · have hne : maskedDiffs2 xs idx_margin ≠ [] := by
        simp only [maskedDiffs2]
        intro h
        exact hx (List.map_eq_nil_iff.mp h)
      have := np_argmax_lt (maskedDiffs2 xs idx_margin) hne
      omega
    · intro k hk
      exact np_argmax_le (maskedDiffs2 xs idx_margin) k (by omega)

/-- C3 witness: the amended characterization evaluated at the concrete
input `[1000, 1005, 999999]` with margin 1024. -/
theorem select_pkt_start_characterization_witness :
    ∃ j, j < ([1000, 1005, 999999] : List Int).length ∧
      (select_pkt_start [1000, 1005, 999999] 1024).start =
        ([1000, 1005, 999999] : List Int).getD j 0 + 1024 ∧
      ∀ k, k < ([1000, 1005, 999999] : List Int).length →
        (maskedDiffs2 [1000, 1005, 999999] 1024).getD k 0 ≤
          (maskedDiffs2 [1000, 1005, 999999] 1024).getD j 0 :=
  (select_pkt_start_characterization [1000, 1005, 999999] 1024 (by decide)).2.2

theorem loop_final_i_last_iff (fresh : Nat → Bool) :
    ∀ fuel start, 1 ≤ fuel →
      (loop_final_i fresh start fuel = start + (fuel - 1) ↔
        ∀ k, k < fuel - 1 → fresh (start + k) = false)
  | 0, _, h => absurd h (by omega)
  | 1, start, _ => by
    simp [loop_final_i]
  | f + 2, start, _ => by
    have ihh := loop_final_i_last_iff fresh (f + 1) (start + 1) (by omega)
    by_cases hf : fresh start = true
    · simp only [loop_final_i, if_pos hf]
      constructor
      · intro hEq
        exact absurd hEq (by omega)
      · intro hall
        exfalso
        have h0 := hall 0 (by omega)
        rw [Nat.add_zero, hf] at h0
        exact Bool.false_ne_true h0.symm
    · have hf' : fresh start = false := by
        revert hf
        cases fresh start <;> simp
      simp only [loop_final_i, if_neg hf]
      have he1 : start + (f + 2 - 1) = start + 1 + (f + 1 - 1) := by omega
      rw [he1, ihh]
      constructor
      · intro hB k hk
        cases k with
        | zero =>
          rw [Nat.add_zero]
          exact hf'
        | succ k =>
          have hidx : start + 1 + k = start + (k + 1) := by omega
          have := hB k (by omega)
          rwa [hidx] at this
      · intro hC k hk
        have hidx : start + (k + 1) = start + 1 + k := by omega
        have := hC (k + 1) (by omega)
        rwa [hidx] at this

/-- C9: `get_target` returns the fallback UNKNOWN exactly when no fresh
target was observed within the first `retries - 1` attempts; in
particular a fresh observation on the final attempt still yields UNKNOWN,
and the stored target string is returned only when a fresh target was
observed strictly before the final attempt. -/
theorem get_target_final_retry (obs : Nat → Int × Int) (retries : Nat)
    (stored : String) (h : 1 ≤ retries) :
    get_target obs retries stored =
      if (List.range (retries - 1)).any (target_fresh obs) then stored
      else "UNKNOWN" := by
  have hiff := loop_final_i_last_iff (target_fresh obs) retries 0 h
  simp only [Nat.zero_add] at hiff
  by_cases hany : (List.range (retries - 1)).any (target_fresh obs) = true
  · rw [if_pos hany]
    rcases List.any_eq_true.mp hany with ⟨k, hkmem, hkf⟩
    have hk : k < retries - 1 := List.mem_range.mp hkmem
    have hne : loop_final_i (target_fresh obs) 0 retries ≠ retries - 1 := by
      intro hEq
      have h0 := hiff.mp hEq k hk
      rw [h0] at hkf
      exact Bool.false_ne_true hkf
    rw [get_target, if_neg hne]
  · rw [if_neg hany]
    have hall : ∀ k, k < retries - 1 → target_fresh obs k = false := by
      intro k hk
      rcases Bool.eq_false_or_eq_true (target_fresh obs k) with h1 | h0
      · exact absurd (List.any_eq_true.mpr ⟨k, List.mem_range.mpr hk, h1⟩) hany
      · exact h0
    rw [get_target, if_pos (hiff.mpr hall)]

/-- C9 witness: two retries where only the final attempt observes a fresh
target (timestamps 5 vs 3) still return UNKNOWN. -/
theorem get_target_final_retry_witness :
    get_target (fun i => if i = 1 then (5, 3) else (0, 7)) 2 "J0918-1205" =
      "UNKNOWN" := by
  rw [get_target_final_retry (fun i => if i = 1 then (5, 3) else (0, 7)) 2
    "J0918-1205" (by omega)]
  decide

/-- C6: for the URL `spead://239.0.0.0+3:7148` (so `n_addrs = N + 1 = 4`)
with M = 4 nodes, capacity S = 4 and offset 0, the planner raises
`UnboundLocalError` (modelled as `none`) instead of returning groups whose
stream counts sum to `min(N+1-O, M*S) = 4`; the crash hits every input
with `N+1-O ≤ S`.  An in-range input (32 addresses, offset 8, 8 nodes of
capacity 4) does return a plan summing to `min(24, 32) = 24`. -/
theorem create_addr_list_filled_crashes_small_band :
    create_addr_list_filled "239.0.0" 0 4 4 4 0 = none ∧
    (create_addr_list_filled "239.0.0" 0 8 32 4 8).map planStreamSum = some 24 := by
  exact ⟨by decide, by decide⟩

/-- C7: with capacity S = 16 and 32 streams over 2 nodes the planner
produces the group `239.0.0.0+15`, which covers 16 streams, but the NSTRM
published for that node is `int(5) + 1 = 6 ≠ 16` because the source parses
only the last character of the group string; consequently the published
SCHAN for node 1 is `(0 + 1*6)*4096 = 24576`, not the claimed
`(0 + 1*16)*4096`. -/
theorem nstrm_published_wrong_for_two_digit_count :
    (create_addr_list_filled "239.0.0" 0 2 32 16 0).map (List.map AddrGroup.toStr) =
      some ["239.0.0.0+15", "239.0.0.16+15"] ∧
    (create_addr_list_filled "239.0.0" 0 2 32 16 0).map planStreamSum = some 32 ∧
    nstrm_published "239.0.0.0+15" = some 6 ∧
    schan_published 0 4096 1 6 = 24576 ∧
    (6 : Int) ≠ 16 ∧ (24576 : Int) ≠ (0 + 1 * 16) * 4096 := by
  exact ⟨by decide, by decide, by decide, by decide, by decide, by decide⟩

theorem eraseAlloc_of_not_mem (a : Alloc) (pid : String)
    (h : pid ∉ a.map Prod.fst) : eraseAlloc a pid = a := by
  apply List.filter_eq_self.mpr
  intro x hx
  have hne : x.1 ≠ pid := by
    intro hEq
    exact h (hEq ▸ List.mem_map_of_mem Prod.fst hx)
  exact decide_eq_true hne

theorem lookupAlloc_of_not_mem (a : Alloc) (pid : String)
    (h : pid ∉ a.map Prod.fst) : lookupAlloc a pid = [] := by
  have hfind : a.find? (fun p => p.1 = pid) = none := by
    apply List.find?_eq_none.mpr
    intro x hx
    simp only [decide_eq_true_eq]
    intro hEq
    exact h (hEq ▸ List.mem_map_of_mem Prod.fst hx)
  simp [lookupAlloc, hfind]

theorem not_mem_keys_of_find?_none (a : Alloc) (pid : String)
    (h : a.find? (fun p => p.1 = pid) = none) : pid ∉ a.map Prod.fst := by
  intro hmem
  rcases List.mem_map.mp hmem with ⟨x, hx, hx1⟩
  have := List.find?_eq_none.mp h x hx
  simp only [decide_eq_true_eq] at this
  exact this hx1

theorem not_mem_keys_eraseAlloc (a : Alloc) (pid : String) :
    pid ∉ (eraseAlloc a pid).map Prod.fst := by
  intro hmem
  rcases List.mem_map.mp hmem with ⟨x, hx, hx1⟩
  have h2 := (List.mem_filter.mp hx).2
  have h3 : x.1 ≠ pid := of_decide_eq_true h2
  exact h3 hx1

theorem nodup_keys_eraseAlloc (a : Alloc) (pid : String)
    (h : (a.map Prod.fst).Nodup) : ((eraseAlloc a pid).map Prod.fst).Nodup :=
  List.Nodup.sublist ((List.filter_sublist a).map Prod.fst) h

theorem allocKeysNodup_conf (st : PoolState) (pid : String) (n : Nat)
    (h : allocKeysNodup st) : allocKeysNodup (conf_complete st pid n) := by
  unfold conf_complete
  by_cases hfe : st.freeHosts.length = 0
  · rwa [if_pos hfe]
  · rw [if_neg hfe]
    unfold allocKeysNodup
    simp only [List.map_append]
    apply List.nodup_append.mpr
    refine ⟨nodup_keys_eraseAlloc st.alloc pid h, by simp, ?_⟩
    intro x hx hx2
    simp only [List.map_cons, List.map_nil, List.mem_cons, List.not_mem_nil,
      or_false] at hx2
    rw [hx2] at hx
    exact not_mem_keys_eraseAlloc st.alloc pid hx

theorem allocKeysNodup_deconf (st : PoolState) (pid : String)
    (h : allocKeysNodup st) : allocKeysNodup (deconfigure st pid) :=
  nodup_keys_eraseAlloc st.alloc pid h

theorem erase_lookup_sum (a : Alloc) (pid : String)
    (h : (a.map Prod.fst).Nodup) :
    ((eraseAlloc a pid).map (fun p => (p.2 : Multiset String))).sum +
      (lookupAlloc a pid : Multiset String) =
      (a.map (fun p => (p.2 : Multiset String))).sum := by
  induction a with
  | nil => simp [eraseAlloc, lookupAlloc]
  | cons x a ih =>
    have hx : x.1 ∉ a.map Prod.fst := (List.nodup_cons.mp (by simpa using h)).1
    have ha : (a.map Prod.fst).Nodup := (List.nodup_cons.mp (by simpa using h)).2
    by_cases hp : x.1 = pid
    · have he : eraseAlloc (x :: a) pid = a := by
        unfold eraseAlloc
        rw [List.filter_cons]
        have : (decide (x.1 ≠ pid)) = false := by simp [hp]
        rw [this]
        simp only [Bool.false_eq_true, if_false]
        exact eraseAlloc_of_not_mem a pid (hp ▸ hx)
      have hl : lookupAlloc (x :: a) pid = x.2 := by
        unfold lookupAlloc
        rw [List.find?_cons_of_pos _ (by simp [hp])]
        rfl
      rw [he, hl]
      simp only [List.map_cons, List.sum_cons]
      abel
    · have he : eraseAlloc (x :: a) pid = x :: eraseAlloc a pid := by
        unfold eraseAlloc
        rw [List.filter_cons]
        have : (decide (x.1 ≠ pid)) = true := decide_eq_true hp
        rw [this]
        simp
      have hl : lookupAlloc (x :: a) pid = lookupAlloc a pid := by
        unfold lookupAlloc
        rw [List.find?_cons_of_neg _ (by simp [hp])]
      rw [he, hl]
      simp only [List.map_cons, List.sum_cons]
      rw [add_assoc, ih ha]

theorem hostsMultiset_conf (st : PoolState) (pid : String) (n : Nat)
    (hfresh : st.alloc.find? (fun p => p.1 = pid) = none) :
    hostsMultiset (conf_complete st pid n) = hostsMultiset st := by
  unfold conf_complete
  by_cases hfe : st.freeHosts.length = 0
  · rw [if_pos hfe]
  · rw [if_neg hfe]
    have hmem := not_mem_keys_of_find?_none st.alloc pid hfresh
    unfold hostsMultiset
    simp only [eraseAlloc_of_not_mem st.alloc pid hmem, List.map_append,
      List.sum_append, List.map_cons, List.map_nil, List.sum_cons,
      List.sum_nil]
    have hsplit : (st.freeHosts : Multiset String) =
        (st.freeHosts.take n : Multiset String) +
          (st.freeHosts.drop n : Multiset String) := by
      rw [Multiset.coe_add, List.take_append_drop]
    rw [hsplit]
    abel

theorem hostsMultiset_deconf (st : PoolState) (pid : String)
    (hnd : allocKeysNodup st) :
    hostsMultiset (deconfigure st pid) = hostsMultiset st := by
  unfold deconfigure hostsMultiset
  simp only
  rw [← Multiset.coe_add]
  have := erase_lookup_sum st.alloc pid hnd
  calc (st.freeHosts : Multiset String) + (lookupAlloc st.alloc pid : Multiset String) +
        ((eraseAlloc st.alloc pid).map (fun p => (p.2 : Multiset String))).sum
      = (st.freeHosts : Multiset String) +
          (((eraseAlloc st.alloc pid).map (fun p => (p.2 : Multiset String))).sum +
            (lookupAlloc st.alloc pid : Multiset String)) := by abel
    _ = (st.freeHosts : Multiset String) +
          (st.alloc.map (fun p => (p.2 : Multiset String))).sum := by rw [this]

theorem poolRun_hostsMultiset :
    ∀ (evs : List PoolEvent) (st : PoolState), allocKeysNodup st →
      confFresh st evs → hostsMultiset (poolRun st evs) = hostsMultiset st
  | [], _, _, _ => rfl
  | PoolEvent.conf pid n :: evs, st, hnd, hfresh => by
    rcases hfresh with ⟨hf, hrest⟩
    have h1 := poolRun_hostsMultiset evs (poolStep st (PoolEvent.conf pid n))
      (allocKeysNodup_conf st pid n hnd) hrest
    calc hostsMultiset (poolRun st (PoolEvent.conf pid n :: evs))
        = hostsMultiset (poolRun (poolStep st (PoolEvent.conf pid n)) evs) := by
          rw [poolRun, List.foldl_cons]
          rfl
      _ = hostsMultiset (poolStep st (PoolEvent.conf pid n)) := h1
      _ = hostsMultiset st := hostsMultiset_conf st pid n hf
  | PoolEvent.deconf pid :: evs, st, hnd, hfresh => by
    have h1 := poolRun_hostsMultiset evs (poolStep st (PoolEvent.deconf pid))
      (allocKeysNodup_deconf st pid hnd) hfresh
    calc hostsMultiset (poolRun st (PoolEvent.deconf pid :: evs))
        = hostsMultiset (poolRun (poolStep st (PoolEvent.deconf pid)) evs) := by
          rw [poolRun, List.foldl_cons]
          rfl
      _ = hostsMultiset (poolStep st (PoolEvent.deconf pid)) := h1
      _ = hostsMultiset st := hostsMultiset_deconf st pid hnd

/-- C1 counterexample: starting from the pool `[h0, h1]`, handling
`conf_complete` twice for the same subarray (each planning one gateway
channel) overwrites the first allocation, so host `h0` is lost and the
disjoint union of the free pool and the allocation lists no longer equals
the initial host set. -/
theorem free_pool_partition_fails_on_reconfigure :
    hostsMultiset (poolRun { freeHosts := ["h0", "h1"], alloc := [] }
        [PoolEvent.conf "array_1" 1, PoolEvent.conf "array_1" 1]) ≠
      (["h0", "h1"] : Multiset String) := by
  decide

/-- C1 (amended): for every sequence of `conf_complete` and `deconfigure`
events in which no `conf_complete` is handled for a product id that
currently holds an allocation entry, the multiset union of the free pool
and all per-subarray allocation lists equals the initial host set: no
host is duplicated and none is lost. -/
theorem free_pool_partition_of_fresh_configs (init : List String)
    (evs : List PoolEvent)
    (hfresh : confFresh { freeHosts := init, alloc := [] } evs) :
    hostsMultiset (poolRun { freeHosts := init, alloc := [] } evs) =
      (init : Multiset String) := by
  have h := poolRun_hostsMultiset evs { freeHosts := init, alloc := [] }
    (by simp [allocKeysNodup]) hfresh
  rw [h]
  unfold hostsMultiset
  simp

/-- C1 witness: a configure, a deconfigure and a configure of a second
subarray over the pool `[h0, h1, h2]` preserve the host multiset. -/
theorem free_pool_partition_witness :
    hostsMultiset (poolRun { freeHosts := ["h0", "h1", "h2"], alloc := [] }
        [PoolEvent.conf "array_1" 2, PoolEvent.deconf "array_1",
         PoolEvent.conf "array_2" 1]) = (["h0", "h1", "h2"] : Multiset String) :=
  free_pool_partition_of_fresh_configs ["h0", "h1", "h2"]
    [PoolEvent.conf "array_1" 2, PoolEvent.deconf "array_1",
     PoolEvent.conf "array_2" 1] ⟨by decide, by decide, trivial⟩

/-- C2: the class-based `tracking_start` has no trigger guard.  An armed
subarray does transition to idle after one tracking event, but a
tracking event arriving with the per-subarray trigger mode already idle
(and tracking state false) still publishes PKTSTART (2000 + 1024 = 3024)
to the allocated host, contradicting the guard the claim (and the
constructor's docstring) describe. -/
theorem tracking_start_ignores_idle_trigger :
    (tracking_start "array_1" armedModeState).trigger = "idle" ∧
    idleModeState.triggerMode = "idle" ∧
    idleModeState.trackingState = "0" ∧
    (tracking_start "array_1" idleModeState).ops =
      [Op.publish "bluse://blpn01/set" "DATADIR=/buf0/20240101/0007",
       Op.publish "bluse://blpn01/set" "SRC_NAME=J0918-1205",
       Op.publish "bluse://blpn01/set" "RA_STR=9:18:05.28",
       Op.publish "bluse://blpn01/set" "DEC_STR=-12:05:48.9",
       Op.publish "bluse://blpn01/set" "PKTSTART=3024",
       Op.publish "slack-messages"
         "meerkat-obs-log::meerkat:: New recording started for array_1!",
       Op.setKey "coordinator:tracking:array_1" "1"] := by
  exact ⟨by decide, rfl, rfl, by rfl⟩

/-- C4: when no allocated host is active, `get_start_idx` returns `None`,
but `tracking_start` still publishes the message `PKTSTART=None` to every
allocated host (the `None` check is missing at the call site,
coordinator.py lines 274-277); the tracking state is nevertheless set to
1 as the claim says. -/
theorem tracking_start_publishes_pktstart_none :
    get_start_idx inactiveHostsState.allocated inactiveHostsState.statusOf
      PKTIDX_MARGIN = none ∧
    (tracking_start "array_1" inactiveHostsState).ops =
      [Op.publish "bluse://blpn01/set" "DATADIR=/buf0/20240101/0007",
       Op.publish "bluse://blpn01/set" "SRC_NAME=J0918-1205",
       Op.publish "bluse://blpn01/set" "RA_STR=9:18:05.28",
       Op.publish "bluse://blpn01/set" "DEC_STR=-12:05:48.9",
       Op.publish "bluse://blpn02/set" "DATADIR=/buf0/20240101/0007",
       Op.publish "bluse://blpn02/set" "SRC_NAME=J0918-1205",
       Op.publish "bluse://blpn02/set" "RA_STR=9:18:05.28",
       Op.publish "bluse://blpn02/set" "DEC_STR=-12:05:48.9",
       Op.publish "bluse://blpn01/set" "PKTSTART=None",
       Op.publish "bluse://blpn02/set" "PKTSTART=None",
       Op.publish "slack-messages"
         "meerkat-obs-log::meerkat:: New recording started for array_1!",
       Op.setKey "coordinator:tracking:array_1" "1"] ∧
    (tracking_start "array_1" inactiveHostsState).tracking = "1" := by
  exact ⟨rfl, by rfl, rfl⟩

theorem hostChan_inj (h h' : String)
    (hEq : HPGDOMAIN ++ "://" ++ h ++ "/set" =
      HPGDOMAIN ++ "://" ++ h' ++ "/set") : h = h' := by
  have hdata := congrArg String.data hEq
  simp only [String.data_append] at hdata
  have h1 := List.append_cancel_right hdata
  have h2 := List.append_cancel_left h1
  exact congrArg String.mk h2

theorem stopBlock_filter_ne (f : String → List (String × String))
    (h h' : String) (hne : h' ≠ h) :
    (stopBlock f h').filter (isPubTo (HPGDOMAIN ++ "://" ++ h ++ "/set")) =
      [] := by
  have hc : (decide ((HPGDOMAIN ++ "://" ++ h' ++ "/set") =
      (HPGDOMAIN ++ "://" ++ h ++ "/set"))) = false := by
    apply decide_eq_false
    intro hEq
    exact hne (hostChan_inj h' h hEq)
  simp [stopBlock, pub_gateway_msg, isPubTo, List.filter, hc]

theorem stopBlock_filter_self (f : String → List (String × String))
    (h : String) :
    (stopBlock f h).filter (isPubTo (HPGDOMAIN ++ "://" ++ h ++ "/set")) =
      [Op.publish (HPGDOMAIN ++ "://" ++ h ++ "/set") "DWELL=0",
       Op.publish (HPGDOMAIN ++ "://" ++ h ++ "/set") "PKTSTART=0",
       Op.publish (HPGDOMAIN ++ "://" ++ h ++ "/set")
         ("DWELL=" ++ get_dwell_time (f h))] := by
  simp [stopBlock, pub_gateway_msg, isPubTo, List.filter]

theorem stopBlock_filter_not_mem (f : String → List (String × String))
    (l : List String) (h : String) (hnot : h ∉ l) :
    ((l.map (stopBlock f)).flatten.filter
      (isPubTo (HPGDOMAIN ++ "://" ++ h ++ "/set"))) = [] := by
  induction l with
  | nil => rfl
  | cons x l ih =>
    simp only [List.map_cons, List.flatten_cons, List.filter_append]
    rw [stopBlock_filter_ne f h x
      (fun hEq => hnot (hEq ▸ List.mem_cons_self x l))]
    rw [ih (fun hm => hnot (List.mem_cons_of_mem x hm))]
    rfl

theorem stopBlock_filter_mem (f : String → List (String × String))
    (l : List String) (h : String) (hnd : l.Nodup) (hmem : h ∈ l) :
    ((l.map (stopBlock f)).flatten.filter
      (isPubTo (HPGDOMAIN ++ "://" ++ h ++ "/set"))) =
      [Op.publish (HPGDOMAIN ++ "://" ++ h ++ "/set") "DWELL=0",
       Op.publish (HPGDOMAIN ++ "://" ++ h ++ "/set") "PKTSTART=0",
       Op.publish (HPGDOMAIN ++ "://" ++ h ++ "/set")
         ("DWELL=" ++ get_dwell_time (f h))] := by
  induction l with
  | nil => cases hmem
  | cons x l ih =>
    rcases List.nodup_cons.mp hnd with ⟨hx, hl⟩
    simp only [List.map_cons, List.flatten_cons, List.filter_append]
    rcases List.mem_cons.mp hmem with hEq | hmem'
    · rw [← hEq] at hx ⊢
      rw [stopBlock_filter_self, stopBlock_filter_not_mem f l h hx,
        List.append_nil]
    · rw [stopBlock_filter_ne f h x (fun hEq => hx (hEq ▸ hmem'))]
      rw [List.nil_append]
      exact ih hl hmem'

theorem stopBlock_sublist_flatten (f : String → List (String × String))
    (l : List String) (h : String) (hmem : h ∈ l) :
    (stopBlock f h).Sublist ((l.map (stopBlock f)).flatten) := by
  induction l with
  | nil => cases hmem
  | cons x l ih =>
    simp only [List.map_cons, List.flatten_cons]
    rcases List.mem_cons.mp hmem with hEq | hmem'
    · rw [hEq]
      exact List.sublist_append_left _ _
    · exact (ih hmem').trans (List.sublist_append_right _ _)

/-- C5: on a not-tracking event with stored tracking state 1, every
allocated host (hosts are pairwise distinct) receives exactly the ordered
message sequence DWELL=0, PKTSTART=0, DWELL=prior on its own gateway
channel, with the 100 ms sleep between the PKTSTART reset and the DWELL
restore, and the tracking state is then set to 0; with any other stored
tracking state no operation is performed. -/
theorem tracking_stop_sequence (pid : String) (st : CoordState)
    (hnd : st.allocated.Nodup) :
    (st.trackingState = "1" →
      (∀ h ∈ st.allocated,
        ((tracking_stop pid st).ops.filter
            (isPubTo (HPGDOMAIN ++ "://" ++ h ++ "/set"))) =
          [Op.publish (HPGDOMAIN ++ "://" ++ h ++ "/set") "DWELL=0",
           Op.publish (HPGDOMAIN ++ "://" ++ h ++ "/set") "PKTSTART=0",
           Op.publish (HPGDOMAIN ++ "://" ++ h ++ "/set")
             ("DWELL=" ++ get_dwell_time (st.statusOf h))] ∧
        List.Sublist
          [Op.publish (HPGDOMAIN ++ "://" ++ h ++ "/set") "PKTSTART=0",
           Op.sleepMs 100,
           Op.publish (HPGDOMAIN ++ "://" ++ h ++ "/set")
             ("DWELL=" ++ get_dwell_time (st.statusOf h))]
          (tracking_stop pid st).ops) ∧
      (tracking_stop pid st).tracking = "0") ∧
    (st.trackingState ≠ "1" → (tracking_stop pid st).ops = []) := by
  constructor
  · intro htr
    have hops : (tracking_stop pid st).ops =
        (st.allocated.map (stopBlock st.statusOf)).flatten ++
          [Op.setKey ("coordinator:tracking:" ++ pid) "0"] := by
      rw [tracking_stop, if_pos htr]
    constructor
    · intro h hmem
      constructor
      · rw [hops, List.filter_append]
        rw [stopBlock_filter_mem st.statusOf st.allocated h hnd hmem]
        rfl
      · rw [hops]
        have h1 : List.Sublist
            [Op.publish (HPGDOMAIN ++ "://" ++ h ++ "/set") "PKTSTART=0",
             Op.sleepMs 100,
             Op.publish (HPGDOMAIN ++ "://" ++ h ++ "/set")
               ("DWELL=" ++ get_dwell_time (st.statusOf h))]
            (stopBlock st.statusOf h) := by
          show List.Sublist _
            (Op.publish (HPGDOMAIN ++ "://" ++ h ++ "/set") "DWELL=0" ::
              [Op.publish (HPGDOMAIN ++ "://" ++ h ++ "/set") "PKTSTART=0",
               Op.sleepMs 100,
               Op.publish (HPGDOMAIN ++ "://" ++ h ++ "/set")
                 ("DWELL=" ++ get_dwell_time (st.statusOf h))])
          exact List.sublist_cons_self _ _
        exact (h1.trans
          (stopBlock_sublist_flatten st.statusOf st.allocated h hmem)).trans
          (List.sublist_append_left _ _)
    · rw [tracking_stop, if_pos htr]
  · intro htr
    rw [tracking_stop, if_neg htr]

/-- C5 witness: at the concrete state, host blpn01 receives exactly
DWELL=0, PKTSTART=0, DWELL=300 and the handler resets tracking to 0. -/
theorem tracking_stop_sequence_witness :
    ((tracking_stop "array_1" stopWitnessState).ops.filter
        (isPubTo "bluse://blpn01/set")) =
      [Op.publish "bluse://blpn01/set" "DWELL=0",
       Op.publish "bluse://blpn01/set" "PKTSTART=0",
       Op.publish "bluse://blpn01/set" "DWELL=300"] ∧
    (tracking_stop "array_1" stopWitnessState).tracking = "0" :=
  ⟨(((tracking_stop_sequence "array_1" stopWitnessState (by decide)).1
      rfl).1 "blpn01" (by decide)).1,
    ((tracking_stop_sequence "array_1" stopWitnessState (by decide)).1
      rfl).2⟩

end MKBI
